import Mathlib

/-!
Shallow embedding of the token-list validator (src/validate.ts) together with
the schema definitions (schemas.ts) and the network registry (chains.ts) of
the SpecularL2 token-list repository.

Conventions of the embedding:
- Parsed JSON documents are modelled by `JsonValue`; a JavaScript property
  read `x.k` on a parsed document is `getField x "k"` (absent keys give
  `none`, modelling `undefined`).
- The strict JavaScript comparison `===` applied to two values read out of
  independently parsed JSON documents is `jsValueEq`: primitives compare
  structurally, while objects and arrays never compare equal because two
  separate `JSON.parse` results are never reference-equal.
- Blocking I/O (RPC calls, the external list fetch, the black-box generator
  plus its schema validation) is an explicit oracle record `Env`.
- A JavaScript exception that the source does not catch is `Except.error ()`:
  the promise returned by `validate` rejects and every accumulated
  diagnostic is lost.
-/

inductive JsonValue where
  | str (s : String)
  | int (n : Int)
  | bool (b : Bool)
  | null
  | obj (fields : List (String × JsonValue))
  | arr (elems : List JsonValue)

/-- Lookup of a key in the field list of a parsed JSON object. -/
def lookupField : List (String × JsonValue) → String → Option JsonValue
  | [], _ => none
  | (k, v) :: rest, key => if k = key then some v else lookupField rest key

/-- JavaScript property read `x.k` on a parsed JSON document: reading a key
from a non-object, or an absent key, gives `none` (undefined). -/
def getField : JsonValue → String → Option JsonValue
  | .obj fs, key => lookupField fs key
  | _, _ => none

/-- JavaScript strict equality `===` between two optional values read out of
two independently parsed JSON documents. Primitives compare structurally;
`none` models `undefined`; objects and arrays are compared by reference in
JavaScript and two distinct parse results are never reference-equal, so they
are never equal here. -/
def jsValueEq : Option JsonValue → Option JsonValue → Bool
  | none, none => true
  | some (.str a), some (.str b) => a = b
  | some (.int a), some (.int b) => a = b
  | some (.bool a), some (.bool b) => a = b
  | some .null, some .null => true
  | _, _ => false

inductive DiagKind where
  | error
  | warning
deriving DecidableEq, Repr

/-- One reported issue: `results.push({type, message})` in the source. -/
structure Diagnostic where
  kind : DiagKind
  message : String
deriving DecidableEq, Repr

/-- Network metadata from chains.ts; the RPC provider itself is modelled by
the oracle record `Env`, keyed by the chain identifier. -/
structure Network where
  id : Nat
  displayName : String
  layer : Nat
deriving DecidableEq, Repr

/-- NETWORK_DATA from chains.ts: the closed registry of supported chains. -/
def NETWORK_DATA : List (String × Network) :=
  [("specular", ⟨93481, "Specular", 2⟩),
   ("sepolia", ⟨11155111, "Sepolia", 1⟩)]

def lookupNetwork (chain : String) : Option Network :=
  (NETWORK_DATA.find? (fun p => p.1 = chain)).map Prod.snd

/-- The I/O environment of one validation run: the external CoinGecko list
fetch (tokens modelled by their address strings), the per-chain RPC reads
used by the reconciler, the uri format predicate of the jsonschema library,
and the result of schema-validating the black-box generated final list
(`none` means the final list is valid, `some s` is the serialized error
report embedded in the final diagnostic). -/
structure Env where
  cgFetch : Except Unit (List String)
  getCode : String → String → Except Unit String
  decimals : String → String → Except Unit Int
  symbol : String → String → Except Unit String
  name : String → String → Except Unit String
  uriOk : String → Bool
  finalListErrors : Option String

/-- One folder of the data directory: the folder name, the data.json file
(`none` = missing, `some (.error ())` = present but not valid JSON), the
number of logo files matched by the glob, and the expectedMismatches.json
file (`none` = absent). -/
structure Folder where
  name : String
  dataFile : Option (Except Unit JsonValue)
  logoCount : Nat
  emFile : Option (Except Unit JsonValue)

/- Diagnostic message templates from validate.ts. -/

def tokPrefix (fname chain addr : String) : String :=
  s!"{fname} on chain {chain} token {addr}"

def existsErrMsg (fname chain addr : String) : String :=
  tokPrefix fname chain addr ++ " does not exist"

def incorrectMsg (fname chain addr fld : String) : String :=
  tokPrefix fname chain addr ++ (" has incorrect " ++ fld)

def failedMsg (fname chain addr fld : String) : String :=
  tokPrefix fname chain addr ++ (" failed to get " ++ fld)

def overriddenMsg (fname chain addr fld : String) : String :=
  tokPrefix fname chain addr ++ (" has overridden " ++ fld)

def cgNotFoundMsg (fname chain addr : String) : String :=
  tokPrefix fname chain addr ++ " not found on CoinGecko token list"

def logoMsg (fname : String) (n : Nat) : String :=
  s!"{fname} has {n} logo files, make sure your logo is either logo.png OR logo.svg"

def cgFetchFailMsg : String := "fetch for CoinGecko token list failed"

def finalListMsg (s : String) : String := s!"final token list is invalid: {s}"

def mkSchemaDiag (fname : String) (v : String × String) : Diagnostic :=
  ⟨.error, s!"{fname}: {v.1}: {v.2}"⟩

/- Embedding of TOKEN_DATA_SCHEMA (schemas.ts) as run by the jsonschema
library: each violated constraint yields one (property path, message) pair.
The overrides subschema of TOKEN_SCHEMA places its field names at keyword
position, which JSON Schema ignores, so overrides accepts anything. -/

def checkStringProp (fs : List (String × JsonValue)) (key : String) :
    List (String × String) :=
  match lookupField fs key with
  | none => []
  | some (.str _) => []
  | some _ => [("instance." ++ key, "is not of a type(s) string")]

def checkBoolProp (fs : List (String × JsonValue)) (key : String) :
    List (String × String) :=
  match lookupField fs key with
  | none => []
  | some (.bool _) => []
  | some _ => [("instance." ++ key, "is not of a type(s) boolean")]

def checkIntProp (fs : List (String × JsonValue)) (key : String) :
    List (String × String) :=
  match lookupField fs key with
  | none => []
  | some (.int _) => []
  | some _ => [("instance." ++ key, "is not of a type(s) integer")]

def checkDescription (fs : List (String × JsonValue)) : List (String × String) :=
  match lookupField fs "description" with
  | none => []
  | some (.str s) =>
    (if s.length < 1 then
      [("instance.description", "does not meet minimum length of 1")] else [])
    ++ (if s.length > 1000 then
      [("instance.description", "does not meet maximum length of 1000")] else [])
  | some _ => [("instance.description", "is not of a type(s) string")]

def checkWebsite (uriOk : String → Bool) (fs : List (String × JsonValue)) :
    List (String × String) :=
  match lookupField fs "website" with
  | none => []
  | some (.str s) =>
    if uriOk s then [] else [("instance.website", "does not conform to the uri format")]
  | some _ => [("instance.website", "is not of a type(s) string")]

def checkAddress (path : String) (fs : List (String × JsonValue)) :
    List (String × String) :=
  match lookupField fs "address" with
  | none => []
  | some (.str s) =>
    (if s.length < 42 then
      [(path ++ ".address", "does not meet minimum length of 42")] else [])
    ++ (if s.length > 42 then
      [(path ++ ".address", "does not meet maximum length of 42")] else [])
  | some _ => [(path ++ ".address", "is not of a type(s) string")]

/-- TOKEN_SCHEMA: required address of fixed length, no additional
properties beyond address and overrides. -/
def checkTokenSchema (path : String) : JsonValue → List (String × String)
  | .obj fs =>
    ((fs.filter (fun kv => !(kv.1 = "address" ∨ kv.1 = "overrides"))).map
      (fun kv => (path, "is not allowed to have the additional property " ++ kv.1)))
    ++ checkAddress path fs
    ++ (if (lookupField fs "address").isNone then
         [(path, "requires property address")] else [])
  | _ => [(path, "is not of a type(s) object")]

def tokensChainKeys : List String := ["specular", "sepolia"]

/-- The tokens subschema: only the supported chain keys may appear, at least
one of them must be present. -/
def checkTokensSchema : JsonValue → List (String × String)
  | .obj fs =>
    ((fs.filter (fun kv => !tokensChainKeys.contains kv.1)).map
      (fun kv => ("instance.tokens",
        "is not allowed to have the additional property " ++ kv.1)))
    ++ (match lookupField fs "specular" with
        | some t => checkTokenSchema "instance.tokens.specular" t
        | none => [])
    ++ (match lookupField fs "sepolia" with
        | some t => checkTokenSchema "instance.tokens.sepolia" t
        | none => [])
    ++ (if (lookupField fs "specular").isSome ∨ (lookupField fs "sepolia").isSome
        then [] else [("instance.tokens", "is not any of the candidate schemas")])
  | _ => [("instance.tokens", "is not of a type(s) object")]

def tokenDataProps : List String :=
  ["nonstandard", "nobridge", "name", "symbol", "decimals",
   "description", "website", "twitter", "tokens"]

def requiredProps : List String := ["name", "symbol", "decimals", "tokens"]

/-- TOKEN_DATA_SCHEMA applied to one parsed data.json document. -/
def schemaViolations (uriOk : String → Bool) : JsonValue → List (String × String)
  | .obj fs =>
    ((fs.filter (fun kv => !tokenDataProps.contains kv.1)).map
      (fun kv => ("instance", "is not allowed to have the additional property " ++ kv.1)))
    ++ checkBoolProp fs "nonstandard"
    ++ checkBoolProp fs "nobridge"
    ++ checkStringProp fs "name"
    ++ checkStringProp fs "symbol"
    ++ checkIntProp fs "decimals"
    ++ checkDescription fs
    ++ checkWebsite uriOk fs
    ++ checkStringProp fs "twitter"
    ++ (match lookupField fs "tokens" with
        | some t => checkTokensSchema t
        | none => [])
    ++ ((requiredProps.filter (fun k => (lookupField fs k).isNone)).map
        (fun k => ("instance", "requires property " ++ k)))
  | _ => [("instance", "is not of a type(s) object")]

/-- JavaScript read `token.overrides?.f`. -/
def overrideField (tok : JsonValue) (fld : String) : Option JsonValue :=
  (getField tok "overrides").bind (fun o => getField o fld)

/-- The decimals block of validate.ts: warn when overridden, otherwise query
the chain; a caught query failure and a declared/on-chain mismatch each give
one error. No expected-mismatch input reaches this block. -/
def checkDecimals (env : Env) (fname chain addr : String) (data tok : JsonValue) :
    List Diagnostic :=
  match overrideField tok "decimals" with
  | some _ => [⟨.warning, overriddenMsg fname chain addr "decimals"⟩]
  | none =>
    match env.decimals chain addr with
    | .error _ => [⟨.error, failedMsg fname chain addr "decimals"⟩]
    | .ok v =>
      if !jsValueEq (getField data "decimals") (some (.int v)) then
        [⟨.error, incorrectMsg fname chain addr "decimals"⟩]
      else []

/-- The symbol block of validate.ts: a mismatch is an error unless the
expectedMismatches record for symbol strictly equals the declared symbol. -/
def checkSymbol (env : Env) (fname chain addr : String) (data em tok : JsonValue) :
    List Diagnostic :=
  match overrideField tok "symbol" with
  | some _ => [⟨.warning, overriddenMsg fname chain addr "symbol"⟩]
  | none =>
    match env.symbol chain addr with
    | .error _ => [⟨.error, failedMsg fname chain addr "symbol"⟩]
    | .ok s =>
      if !jsValueEq (getField data "symbol") (some (.str s)) &&
         !jsValueEq (getField em "symbol") (getField data "symbol") then
        [⟨.error, incorrectMsg fname chain addr "symbol"⟩]
      else []

/-- The name block of validate.ts, symmetric to the symbol block. -/
def checkName (env : Env) (fname chain addr : String) (data em tok : JsonValue) :
    List Diagnostic :=
  match overrideField tok "name" with
  | some _ => [⟨.warning, overriddenMsg fname chain addr "name"⟩]
  | none =>
    match env.name chain addr with
    | .error _ => [⟨.error, failedMsg fname chain addr "name"⟩]
    | .ok s =>
      if !jsValueEq (getField data "name") (some (.str s)) &&
         !jsValueEq (getField em "name") (getField data "name") then
        [⟨.error, incorrectMsg fname chain addr "name"⟩]
      else []

/-- The CoinGecko cross-list block: runs only when the chain literal is
ethereum and the fetched list is defined; lookup is by case-insensitive
address comparison. -/
def checkCG (cg : Option (List String)) (fname chain addr : String) :
    List Diagnostic :=
  if chain = "ethereum" then
    match cg with
    | none => []
    | some lst =>
      if lst.any (fun a => a.toLower = addr.toLower) then []
      else [⟨.warning, cgNotFoundMsg fname chain addr⟩]
  else []

/-- One (chain, token) pair of the token loop. Reading the provider of an
unregistered chain, a missing or non-string address handed to the RPC layer,
and a failing getCode read are all uncaught exceptions. -/
def processToken (env : Env) (cg : Option (List String)) (fname chain : String)
    (data em tok : JsonValue) : Except Unit (List Diagnostic) :=
  match lookupNetwork chain with
  | none => .error ()
  | some _ =>
    match getField tok "address" with
    | some (.str addr) =>
      match env.getCode chain addr with
      | .error _ => .error ()
      | .ok code =>
        .ok ((if code = "0x" then [⟨.error, existsErrMsg fname chain addr⟩] else [])
          ++ checkDecimals env fname chain addr data tok
          ++ checkSymbol env fname chain addr data em tok
          ++ checkName env fname chain addr data em tok
          ++ checkCG cg fname chain addr)
    | _ => .error ()

/-- The token loop of one entry: each pair is verified unless the folder is
the native-asset key ETH or the entry is declared nonstandard. -/
def processTokens (env : Env) (cg : Option (List String)) (fname : String)
    (data em : JsonValue) : List (String × JsonValue) → Except Unit (List Diagnostic)
  | [] => .ok []
  | (chain, tok) :: rest =>
    if fname != "ETH" && !jsValueEq (getField data "nonstandard") (some (.bool true)) then
      match processToken env cg fname chain data em tok with
      | .error e => .error e
      | .ok ds =>
        match processTokens env cg fname data em rest with
        | .error e => .error e
        | .ok rest2 => .ok (ds ++ rest2)
    else processTokens env cg fname data em rest

/-- Object.entries(data.tokens) in declaration order. -/
def tokensEntries (data : JsonValue) : List (String × JsonValue) :=
  match getField data "tokens" with
  | some (.obj fs) => fs
  | _ => []

/-- The per-entry body after both files loaded: logo-count check, schema
validation (on failure every violation becomes one error diagnostic and the
entry is skipped), then the token loop. -/
def processEntry (env : Env) (cg : Option (List String)) (fname : String)
    (logoCount : Nat) (data em : JsonValue) : Except Unit (List Diagnostic) :=
  let logoDiags :=
    if logoCount ≠ 1 then [⟨DiagKind.error, logoMsg fname logoCount⟩] else []
  let sv := schemaViolations env.uriOk data
  if sv = [] then
    match processTokens env cg fname data em (tokensEntries data) with
    | .error e => .error e
    | .ok ds => .ok (logoDiags ++ ds)
  else
    .ok (logoDiags ++ sv.map (mkSchemaDiag fname))

/-- One folder: a missing data.json is reported and then read anyway, so the
read throws; an unparsable data.json or expectedMismatches.json throws in
JSON.parse; an absent expectedMismatches.json is the empty record. -/
def processFolder (env : Env) (cg : Option (List String)) (f : Folder) :
    Except Unit (List Diagnostic) :=
  match f.dataFile with
  | none => .error ()
  | some (.error _) => .error ()
  | some (.ok data) =>
    match f.emFile with
    | some (.error _) => .error ()
    | some (.ok em) => processEntry env cg f.name f.logoCount data em
    | none => processEntry env cg f.name f.logoCount data (.obj [])

/-- The folder loop: diagnostics accumulate in order; an uncaught exception
rejects the whole run. -/
def foldFolders (env : Env) (cg : Option (List String)) :
    List Folder → Except Unit (List Diagnostic)
  | [] => .ok []
  | f :: fs =>
    match processFolder env cg f with
    | .error e => .error e
    | .ok ds =>
      match foldFolders env cg fs with
      | .error e => .error e
      | .ok rest => .ok (ds ++ rest)

/-- The folder filter: a null token list keeps every folder, a present list
keeps exactly its members (an empty list keeps nothing). -/
def keepFolder : Option (List String) → String → Bool
  | none, _ => true
  | some ts, n => ts.contains n

def insertFolder (f : Folder) : List Folder → List Folder
  | [] => [f]
  | g :: gs =>
    if f.name.toLower ≤ g.name.toLower then f :: g :: gs
    else g :: insertFolder f gs

/-- Case-insensitive sort of the directory listing. -/
def sortFolders : List Folder → List Folder
  | [] => []
  | f :: fs => insertFolder f (sortFolders fs)

/-- The final aggregate-list diagnostic from ajv over the generated list. -/
def finalDiags (env : Env) : List Diagnostic :=
  match env.finalListErrors with
  | none => []
  | some s => [⟨DiagKind.error, finalListMsg s⟩]

/-- Directory enumeration, filtering, the folder loop and the final
aggregate check, given the already resolved external list. -/
def validateCore (env : Env) (cg : Option (List String)) (dir : List Folder)
    (toks : Option (List String)) : Except Unit (List Diagnostic) :=
  let folders := (sortFolders dir).filter (fun f => keepFolder toks f.name)
  match foldFolders env cg folders with
  | .error e => .error e
  | .ok ds => .ok (ds ++ finalDiags env)

/-- The resolved external list: a failed fetch degrades to none. -/
def cgList (env : Env) : Option (List String) :=
  match env.cgFetch with
  | .ok l => some l
  | .error _ => none

/-- The run-level warning pushed when the external list fetch fails. -/
def cgDiags (env : Env) : List Diagnostic :=
  match env.cgFetch with
  | .ok _ => []
  | .error _ => [⟨DiagKind.warning, cgFetchFailMsg⟩]

/-- Top-level validate: fetch the external list once, process every kept
folder, validate the generated aggregate list, and return the accumulated
diagnostics; an uncaught exception rejects and loses everything. -/
def validate (env : Env) (dir : List Folder) (toks : Option (List String)) :
    Except Unit (List Diagnostic) :=
  match validateCore env (cgList env) dir toks with
  | .error e => .error e
  | .ok ds => .ok (cgDiags env ++ ds)

/- Helper lemmas about the diagnostic message templates. -/

theorem string_append_right_inj (p : String) {s t : String} (h : s ≠ t) :
    p ++ s ≠ p ++ t := by
  intro he
  apply h
  have hd := congrArg String.data he
  simp [String.data_append] at hd
  cases s with
  | mk sd =>
    cases t with
    | mk td =>
      simpa using congrArg String.mk hd

/-- A diagnostic about the decimals field of a given token: one of the three
messages the decimals block of validate.ts can emit. -/
def decimalsRelated (fname chain addr : String) (d : Diagnostic) : Bool :=
  d.message == incorrectMsg fname chain addr "decimals" ||
  d.message == failedMsg fname chain addr "decimals" ||
  d.message == overriddenMsg fname chain addr "decimals"

theorem decimalsRelated_of_suffix (f c a : String) (k : DiagKind) (s : String)
    (h1 : s ≠ " has incorrect " ++ "decimals")
    (h2 : s ≠ " failed to get " ++ "decimals")
    (h3 : s ≠ " has overridden " ++ "decimals") :
    decimalsRelated f c a ⟨k, tokPrefix f c a ++ s⟩ = false := by
  simp only [decimalsRelated, incorrectMsg, failedMsg, overriddenMsg,
    Bool.or_eq_false_iff, beq_eq_false_iff_ne, ne_eq]
  exact ⟨⟨string_append_right_inj _ h1, string_append_right_inj _ h2⟩,
    string_append_right_inj _ h3⟩

theorem checkSymbol_filter_dec (env : Env) (f c a : String) (data em tok : JsonValue) :
    (checkSymbol env f c a data em tok).filter (decimalsRelated f c a) = [] := by
  unfold checkSymbol
  cases hov : overrideField tok "symbol" with
  | some v =>
    have hfalse := decimalsRelated_of_suffix f c a DiagKind.warning
      " has overridden symbol" (by decide) (by decide) (by decide)
    simp [overriddenMsg, List.filter_cons, hfalse]
  | none =>
    cases hs : env.symbol c a with
    | error e =>
      have hfalse := decimalsRelated_of_suffix f c a DiagKind.error
        " failed to get symbol" (by decide) (by decide) (by decide)
      simp [failedMsg, List.filter_cons, hfalse]
    | ok s =>
      by_cases hb : (!jsValueEq (getField data "symbol") (some (.str s)) &&
          !jsValueEq (getField em "symbol") (getField data "symbol")) = true
      · have hfalse := decimalsRelated_of_suffix f c a DiagKind.error
          " has incorrect symbol" (by decide) (by decide) (by decide)
        simp [hb, incorrectMsg, List.filter_cons, hfalse]
      · simp [hb]

theorem checkName_filter_dec (env : Env) (f c a : String) (data em tok : JsonValue) :
    (checkName env f c a data em tok).filter (decimalsRelated f c a) = [] := by
  unfold checkName
  cases hov : overrideField tok "name" with
  | some v =>
    have hfalse := decimalsRelated_of_suffix f c a DiagKind.warning
      " has overridden name" (by decide) (by decide) (by decide)
    simp [overriddenMsg, List.filter_cons, hfalse]
  | none =>
    cases hs : env.name c a with
    | error e =>
      have hfalse := decimalsRelated_of_suffix f c a DiagKind.error
        " failed to get name" (by decide) (by decide) (by decide)
      simp [failedMsg, List.filter_cons, hfalse]
    | ok s =>
      by_cases hb : (!jsValueEq (getField data "name") (some (.str s)) &&
          !jsValueEq (getField em "name") (getField data "name")) = true
      · have hfalse := decimalsRelated_of_suffix f c a DiagKind.error
          " has incorrect name" (by decide) (by decide) (by decide)
        simp [hb, incorrectMsg, List.filter_cons, hfalse]
      · simp [hb]

theorem checkCG_filter_dec (cg : Option (List String)) (f c a : String) :
    (checkCG cg f c a).filter (decimalsRelated f c a) = [] := by
  unfold checkCG
  by_cases hc : c = "ethereum"
  · simp only [hc, if_true]
    cases cg with
    | none => rfl
    | some lst =>
      by_cases hf : lst.any (fun x => x.toLower = a.toLower) = true
      · simp [hf]
      · have hfalse := decimalsRelated_of_suffix f "ethereum" a DiagKind.warning
          " not found on CoinGecko token list" (by decide) (by decide) (by decide)
        simp only [hf]
        simp [cgNotFoundMsg, List.filter_cons, hfalse]
  · simp [hc]

theorem existsErr_filter_dec (f c a : String) (code : String) :
    ((if code = "0x" then [⟨DiagKind.error, existsErrMsg f c a⟩] else []).filter
      (decimalsRelated f c a) : List Diagnostic) = [] := by
  have hfalse := decimalsRelated_of_suffix f c a DiagKind.error
    " does not exist" (by decide) (by decide) (by decide)
  by_cases hc : code = "0x"
  · simp [hc, existsErrMsg, List.filter_cons, hfalse]
  · simp [hc]

/-- Any (chain, token) pair of an entry that passes TOKEN_DATA_SCHEMA uses a
supported chain key: the tokens subschema admits no other property. -/
theorem schemaValid_chainKeys (u : String → Bool) (data : JsonValue)
    (chain : String) (tok : JsonValue)
    (hv : schemaViolations u data = []) (hm : (chain, tok) ∈ tokensEntries data) :
    chain = "specular" ∨ chain = "sepolia" := by
  cases data with
  | obj fs =>
    cases ht : lookupField fs "tokens" with
    | none =>
      simp only [schemaViolations, ht, List.append_eq_nil] at hv
      have hreq := hv.2
      have h1 : requiredProps.filter (fun k => (lookupField fs k).isNone) = [] :=
        List.map_eq_nil_iff.mp hreq
      have h2 : "tokens" ∈ requiredProps.filter (fun k => (lookupField fs k).isNone) :=
        List.mem_filter.mpr ⟨by simp [requiredProps], by simp [ht]⟩
      rw [h1] at h2
      exact absurd h2 (List.not_mem_nil _)
    | some t =>
      simp only [schemaViolations, ht, List.append_eq_nil] at hv
      have htok : checkTokensSchema t = [] := hv.1.2
      cases t with
      | obj gs =>
        simp only [checkTokensSchema, List.append_eq_nil] at htok
        have hex := htok.1.1.1
        have hfil : gs.filter (fun kv => !tokensChainKeys.contains kv.1) = [] :=
          List.map_eq_nil_iff.mp hex
        have hall := List.filter_eq_nil_iff.mp hfil
        have hmem : (chain, tok) ∈ gs := by
          simpa [tokensEntries, getField, ht] using hm
        have hc := hall _ hmem
        simp [tokensChainKeys] at hc
        exact or_iff_not_imp_left.mpr hc
      | str s => simp [checkTokensSchema] at htok
      | int n => simp [checkTokensSchema] at htok
      | bool b => simp [checkTokensSchema] at htok
      | null => simp [checkTokensSchema] at htok
      | arr es => simp [checkTokensSchema] at htok
  | str s => simp [tokensEntries, getField] at hm
  | int n => simp [tokensEntries, getField] at hm
  | bool b => simp [tokensEntries, getField] at hm
  | null => simp [tokensEntries, getField] at hm
  | arr es => simp [tokensEntries, getField] at hm

/- Concrete fixtures used by witnesses and counterexamples. -/

def addrG : String := "0x1234567890123456789012345678901234567890"

def tokGood : JsonValue := .obj [("address", .str addrG)]

def dataGood : JsonValue :=
  .obj [("name", .str "Test Token"), ("symbol", .str "TST"), ("decimals", .int 18),
        ("tokens", .obj [("specular", tokGood)])]

def emptyObj : JsonValue := .obj []

def envBase : Env :=
  { cgFetch := .ok [], getCode := fun _ _ => .ok "0x6080",
    decimals := fun _ _ => .ok 18, symbol := fun _ _ => .ok "TST",
    name := fun _ _ => .ok "Test Token", uriOk := fun _ => true,
    finalListErrors := none }

def folderGood : Folder := ⟨"TST", some (.ok dataGood), 1, none⟩

def folderMissing : Folder := ⟨"ABC", none, 1, none⟩

def envRpcFail : Env := { envBase with getCode := fun _ _ => .error () }

def envCgFail : Env := { envBase with cgFetch := .error () }

def envSymBBB : Env := { envBase with symbol := fun _ _ => .ok "BBB" }

def envNameBBB : Env := { envBase with name := fun _ _ => .ok "BBB Token" }

def envDec6 : Env := { envBase with decimals := fun _ _ => .ok 6 }

def emMatch : JsonValue := .obj [("symbol", .str "TST")]

def emOnChain : JsonValue := .obj [("symbol", .str "BBB")]

def emNameMatch : JsonValue := .obj [("name", .str "Test Token")]

def emWithDecimals : JsonValue := .obj [("decimals", .int 6)]

def tokOv : JsonValue :=
  .obj [("address", .str addrG),
        ("overrides", .obj [("decimals", .int 6), ("symbol", .str "OVR"),
                            ("name", .str "Ovr Name")])]

def dataEth : JsonValue :=
  .obj [("name", .str "Foo Token"), ("symbol", .str "FOO"), ("decimals", .int 18),
        ("tokens", .obj [("ethereum",
          .obj [("address", .str "0xaaaaaaaaaaaaaaaaaaaaaaaaaaaaaaaaaaaaaaaa")])])]

def folderEth : Folder := ⟨"FOO", some (.ok dataEth), 1, none⟩

def dataNoName : JsonValue :=
  .obj [("symbol", .str "BAD"), ("decimals", .int 18),
        ("tokens", .obj [("specular", tokGood)])]

def folderNoName : Folder := ⟨"BAD", some (.ok dataNoName), 1, none⟩

/-- C1: for a chain-verified token with no override on the field, when the
RPC query for symbol (respectively name) succeeds and the on-chain value
differs from the declared value, the symbol (respectively name) block emits
exactly one error diagnostic, unless the expectedMismatches record for that
field strictly equals the declared value, in which case it emits no
diagnostic at all. -/
theorem C1_mismatch_policy :
    (∀ (env : Env) (fname chain addr : String) (data em tok : JsonValue) (s : String),
      overrideField tok "symbol" = none →
      env.symbol chain addr = .ok s →
      jsValueEq (getField data "symbol") (some (.str s)) = false →
      checkSymbol env fname chain addr data em tok =
        (if jsValueEq (getField em "symbol") (getField data "symbol") then []
         else [⟨DiagKind.error, incorrectMsg fname chain addr "symbol"⟩]))
    ∧ (∀ (env : Env) (fname chain addr : String) (data em tok : JsonValue) (s : String),
      overrideField tok "name" = none →
      env.name chain addr = .ok s →
      jsValueEq (getField data "name") (some (.str s)) = false →
      checkName env fname chain addr data em tok =
        (if jsValueEq (getField em "name") (getField data "name") then []
         else [⟨DiagKind.error, incorrectMsg fname chain addr "name"⟩])) := by
  constructor
  · intro env fname chain addr data em tok s hov hrpc hdiff
    simp only [checkSymbol, hov, hrpc, hdiff, Bool.not_false, Bool.true_and]
    cases hj : jsValueEq (getField em "symbol") (getField data "symbol") <;> simp [hj]
  · intro env fname chain addr data em tok s hov hrpc hdiff
    simp only [checkName, hov, hrpc, hdiff, Bool.not_false, Bool.true_and]
    cases hj : jsValueEq (getField em "name") (getField data "name") <;> simp [hj]

/-- C1 witness: a pre-approved symbol mismatch yields zero diagnostics, an
unapproved name mismatch yields the error. -/
theorem C1_witness :
    checkSymbol envSymBBB "TST" "specular" addrG dataGood emMatch tokGood = []
    ∧ checkName envNameBBB "TST" "specular" addrG dataGood emptyObj tokGood =
        [⟨DiagKind.error, incorrectMsg "TST" "specular" addrG "name"⟩] := by
  constructor
  · have h := C1_mismatch_policy.1 envSymBBB "TST" "specular" addrG dataGood emMatch
      tokGood "BBB" rfl rfl (by decide)
    rw [h]; rfl
  · have h := C1_mismatch_policy.2 envNameBBB "TST" "specular" addrG dataGood emptyObj
      tokGood "BBB Token" rfl rfl (by decide)
    rw [h]; rfl

/-- C2 counterexample: the declared symbol is TST, the on-chain symbol is
BBB. With the expectation recorded as TST (equal to the declared value but
different from the on-chain value BBB) the code emits no diagnostic, and
with the expectation recorded as BBB (equal to the on-chain value) the code
emits the error: the on-chain value is never compared against the recorded
expectation, refuting the claim that the discrepancy is excused only when
the on-chain value equals the expectation. -/
theorem C2_counterexample :
    checkSymbol envSymBBB "TKN" "specular" addrG dataGood emMatch tokGood = []
    ∧ envSymBBB.symbol "specular" addrG = .ok "BBB"
    ∧ getField emMatch "symbol" = some (.str "TST")
    ∧ jsValueEq (some (.str "BBB")) (getField emMatch "symbol") = false
    ∧ checkSymbol envSymBBB "TKN" "specular" addrG dataGood emOnChain tokGood =
        [⟨DiagKind.error, incorrectMsg "TKN" "specular" addrG "symbol"⟩]
    ∧ jsValueEq (some (.str "BBB")) (getField emOnChain "symbol") = true :=
  ⟨rfl, rfl, rfl, rfl, rfl, rfl⟩

/-- C2 amended: when an expectedMismatches record exists for symbol
(respectively name) and the on-chain value differs from the declared value,
the discrepancy is excused exactly when the recorded expectation strictly
equals the declared value; the on-chain value is never compared against the
recorded expectation. -/
theorem C2_declared_escape :
    (∀ (env : Env) (fname chain addr : String) (data em tok : JsonValue) (s : String),
      overrideField tok "symbol" = none →
      env.symbol chain addr = .ok s →
      jsValueEq (getField data "symbol") (some (.str s)) = false →
      (checkSymbol env fname chain addr data em tok = [] ↔
        jsValueEq (getField em "symbol") (getField data "symbol") = true))
    ∧ (∀ (env : Env) (fname chain addr : String) (data em tok : JsonValue) (s : String),
      overrideField tok "name" = none →
      env.name chain addr = .ok s →
      jsValueEq (getField data "name") (some (.str s)) = false →
      (checkName env fname chain addr data em tok = [] ↔
        jsValueEq (getField em "name") (getField data "name") = true)) := by
  constructor
  · intro env fname chain addr data em tok s hov hrpc hdiff
    simp only [checkSymbol, hov, hrpc, hdiff, Bool.not_false, Bool.true_and]
    cases hj : jsValueEq (getField em "symbol") (getField data "symbol") <;> simp [hj]
  · intro env fname chain addr data em tok s hov hrpc hdiff
    simp only [checkName, hov, hrpc, hdiff, Bool.not_false, Bool.true_and]
    cases hj : jsValueEq (getField em "name") (getField data "name") <;> simp [hj]

/-- C2 witness for the amended claim. -/
theorem C2_witness :
    checkSymbol envSymBBB "SYM" "specular" addrG dataGood emMatch tokGood = [] := by
  have h := C2_declared_escape.1 envSymBBB "SYM" "specular" addrG dataGood emMatch
    tokGood "BBB" rfl rfl (by decide)
  exact h.mpr (by decide)

/-- C4: for each of decimals, symbol and name, a present override makes the
field check emit exactly one warning and nothing else, for every
environment, so the chain value is irrelevant and never consulted. -/
theorem C4_override_single_warning :
    ∀ (env : Env) (fname chain addr : String) (data em tok : JsonValue),
    ((overrideField tok "decimals").isSome = true →
      checkDecimals env fname chain addr data tok =
        [⟨DiagKind.warning, overriddenMsg fname chain addr "decimals"⟩])
    ∧ ((overrideField tok "symbol").isSome = true →
      checkSymbol env fname chain addr data em tok =
        [⟨DiagKind.warning, overriddenMsg fname chain addr "symbol"⟩])
    ∧ ((overrideField tok "name").isSome = true →
      checkName env fname chain addr data em tok =
        [⟨DiagKind.warning, overriddenMsg fname chain addr "name"⟩]) := by
  intro env fname chain addr data em tok
  refine ⟨?_, ?_, ?_⟩ <;> intro h
  · cases hov : overrideField tok "decimals" with
    | none => rw [hov] at h; simp at h
    | some v => simp [checkDecimals, hov]
  · cases hov : overrideField tok "symbol" with
    | none => rw [hov] at h; simp at h
    | some v => simp [checkSymbol, hov]
  · cases hov : overrideField tok "name" with
    | none => rw [hov] at h; simp at h
    | some v => simp [checkName, hov]

/-- C4 witness: all three overrides on a token, under an environment whose
RPC reads all fail, still yield exactly the three warnings. -/
theorem C4_witness :
    checkDecimals envRpcFail "TST" "specular" addrG dataGood tokOv =
      [⟨DiagKind.warning, overriddenMsg "TST" "specular" addrG "decimals"⟩]
    ∧ checkSymbol envRpcFail "TST" "specular" addrG dataGood emptyObj tokOv =
      [⟨DiagKind.warning, overriddenMsg "TST" "specular" addrG "symbol"⟩]
    ∧ checkName envRpcFail "TST" "specular" addrG dataGood emptyObj tokOv =
      [⟨DiagKind.warning, overriddenMsg "TST" "specular" addrG "name"⟩] := by
  have h := C4_override_single_warning envRpcFail "TST" "specular" addrG dataGood
    emptyObj tokOv
  exact ⟨h.1 (by decide), h.2.1 (by decide), h.2.2 (by decide)⟩

/-- C9: for an entry whose folder key is the native-asset identifier ETH,
or whose nonstandard flag is strictly true, the token loop emits no
diagnostic at all, whatever the declared chain data. -/
theorem C9_skip_native_and_nonstandard (env : Env) (cg : Option (List String))
    (fname : String) (data em : JsonValue) (entries : List (String × JsonValue))
    (h : fname = "ETH" ∨ jsValueEq (getField data "nonstandard") (some (.bool true)) = true) :
    processTokens env cg fname data em entries = .ok [] := by
  induction entries with
  | nil => rfl
  | cons p rest ih =>
    obtain ⟨chain, tok⟩ := p
    have hc : (fname != "ETH" &&
        !jsValueEq (getField data "nonstandard") (some (.bool true))) = false := by
      rcases h with h | h
      · simp [h]
      · simp [h]
    simp only [processTokens, hc, Bool.false_eq_true, if_false]
    exact ih

/-- C9 witness: the ETH folder produces zero chain-level diagnostics even
under an environment whose bytecode read would otherwise throw. -/
theorem C9_witness :
    processTokens envRpcFail none "ETH" dataGood emptyObj [("specular", tokGood)] = .ok [] :=
  C9_skip_native_and_nonstandard envRpcFail none "ETH" dataGood emptyObj
    [("specular", tokGood)] (Or.inl rfl)

/-- C10: with an empty requested-token list no folder passes the filter and
the result is exactly the fetch diagnostics plus the final aggregate-list
diagnostics, while a null token list keeps every folder. -/
theorem C10_empty_token_list (env : Env) (dir : List Folder) :
    validate env dir (some []) = .ok (cgDiags env ++ finalDiags env)
    ∧ ∀ dir2 : List Folder,
        (sortFolders dir2).filter (fun f => keepFolder none f.name) = sortFolders dir2 := by
  constructor
  · have hf : (sortFolders dir).filter (fun f => keepFolder (some []) f.name) = [] :=
      List.filter_eq_nil_iff.mpr (fun a _ => by simp [keepFolder])
    simp [validate, validateCore, hf, foldFolders]
  · intro dir2
    exact List.filter_eq_self.mpr (fun a _ => rfl)

/-- C7: if the external list fetch fails, validate prepends exactly one
run-level warning to whatever the rest of the run produces, the run itself
proceeds with an undefined external list, and with an undefined external
list the cross-list check emits no diagnostic for any token. -/
theorem C7_fetch_failure_soft (env : Env) (dir : List Folder)
    (toks : Option (List String)) (h : env.cgFetch = .error ()) :
    (validate env dir toks =
      match validateCore env none dir toks with
      | .error e => .error e
      | .ok ds => .ok (⟨DiagKind.warning, cgFetchFailMsg⟩ :: ds))
    ∧ ∀ fname chain addr, checkCG none fname chain addr = [] := by
  constructor
  · simp only [validate, cgList, cgDiags, h]
    cases validateCore env none dir toks <;> simp
  · intro fname chain addr
    by_cases hc : chain = "ethereum" <;> simp [checkCG, hc]

/-- C7 witness: a failing fetch over an empty directory gives exactly the
one warning. -/
theorem C7_witness :
    validate envCgFail [] none = .ok [⟨DiagKind.warning, cgFetchFailMsg⟩] := by
  have h := (C7_fetch_failure_soft envCgFail [] none rfl).1
  rw [h]
  rfl

/-- C3: for a chain-verified token with no decimals override, a successful
decimals query whose value differs from the declared decimals makes the
decimals block emit exactly one error, and in the whole per-token output the
decimals-related diagnostics are exactly that one error, for every
expectedMismatches record whatsoever: the decimals block never consults it. -/
theorem C3_decimals_no_escape (env : Env) (cg : Option (List String))
    (fname chain addr : String) (data em tok : JsonValue) (code : String) (v : Int)
    (hnw : (lookupNetwork chain).isSome = true)
    (haddr : getField tok "address" = some (.str addr))
    (hcode : env.getCode chain addr = .ok code)
    (hov : overrideField tok "decimals" = none)
    (hdec : env.decimals chain addr = .ok v)
    (hne : jsValueEq (getField data "decimals") (some (.int v)) = false) :
    checkDecimals env fname chain addr data tok =
      [⟨DiagKind.error, incorrectMsg fname chain addr "decimals"⟩]
    ∧ ∀ ds, processToken env cg fname chain data em tok = .ok ds →
        ds.filter (decimalsRelated fname chain addr) =
          [⟨DiagKind.error, incorrectMsg fname chain addr "decimals"⟩] := by
  have hcd : checkDecimals env fname chain addr data tok =
      [⟨DiagKind.error, incorrectMsg fname chain addr "decimals"⟩] := by
    simp [checkDecimals, hov, hdec, hne]
  refine ⟨hcd, ?_⟩
  intro ds hds
  obtain ⟨nw, hnw2⟩ := Option.isSome_iff_exists.mp hnw
  simp only [processToken, hnw2, haddr, hcode, Except.ok.injEq] at hds
  rw [← hds]
  rw [hcd]
  simp only [List.filter_append, existsErr_filter_dec, checkSymbol_filter_dec,
    checkName_filter_dec, checkCG_filter_dec, List.append_nil, List.nil_append]
  simp [List.filter_cons, decimalsRelated]

/-- C3 witness: declared decimals 18 against on-chain 6, with an
expectedMismatches record that even mentions decimals, still yields exactly
the one decimals error. -/
theorem C3_witness :
    checkDecimals envDec6 "TST" "specular" addrG dataGood tokGood =
      [⟨DiagKind.error, incorrectMsg "TST" "specular" addrG "decimals"⟩]
    ∧ List.filter (decimalsRelated "TST" "specular" addrG)
        [⟨DiagKind.error, incorrectMsg "TST" "specular" addrG "decimals"⟩] =
      [⟨DiagKind.error, incorrectMsg "TST" "specular" addrG "decimals"⟩] := by
  have h := C3_decimals_no_escape envDec6 none "TST" "specular" addrG dataGood
    emWithDecimals tokGood "0x6080" 6 (by decide) rfl rfl rfl rfl (by decide)
  exact ⟨h.1, h.2 _ rfl⟩

/-- C5: contrary to the claim, validate rejects mid-batch. A folder whose
data.json is missing is reported and then read anyway, so the JSON read
throws; a failing bytecode-existence RPC read is not wrapped in try/catch.
Either uncaught exception aborts the run and loses every accumulated
diagnostic instead of becoming a diagnostic in a complete report. -/
theorem C5_uncaught_abort :
    validate envBase [folderMissing] none = .error ()
    ∧ validate envRpcFail [folderGood] none = .error () :=
  ⟨rfl, rfl⟩

/-- C6: an entry whose data file fails schema validation contributes one
error diagnostic per violation (with property path and message) and nothing
else beyond the logo-count check, so it is excluded from every chain-level
check, and the folder loop continues over the remaining entries unchanged. -/
theorem C6_invalid_entry_isolated (env : Env) (cg : Option (List String))
    (f : Folder) (data : JsonValue)
    (hdf : f.dataFile = some (.ok data))
    (hem : f.emFile ≠ some (.error ()))
    (hsv : schemaViolations env.uriOk data ≠ []) :
    processFolder env cg f =
      .ok ((if f.logoCount ≠ 1 then [⟨DiagKind.error, logoMsg f.name f.logoCount⟩] else [])
        ++ (schemaViolations env.uriOk data).map (mkSchemaDiag f.name))
    ∧ ∀ rest, foldFolders env cg (f :: rest) =
        (match foldFolders env cg rest with
         | .error e => .error e
         | .ok ds =>
           .ok (((if f.logoCount ≠ 1 then [⟨DiagKind.error, logoMsg f.name f.logoCount⟩] else [])
             ++ (schemaViolations env.uriOk data).map (mkSchemaDiag f.name)) ++ ds)) := by
  have h1 : processFolder env cg f =
      .ok ((if f.logoCount ≠ 1 then [⟨DiagKind.error, logoMsg f.name f.logoCount⟩] else [])
        ++ (schemaViolations env.uriOk data).map (mkSchemaDiag f.name)) := by
    cases hem2 : f.emFile with
    | none =>
      simp only [processFolder, hdf, hem2, processEntry]
      rw [if_neg hsv]
    | some e =>
      cases e with
      | error u => exact absurd hem2 (by cases u; exact hem)
      | ok em =>
        simp only [processFolder, hdf, hem2, processEntry]
        rw [if_neg hsv]
  refine ⟨h1, ?_⟩
  intro rest
  simp only [foldFolders, h1]

/-- C6 witness: an entry missing its required name yields exactly the one
schema error, and a following valid entry is still processed. -/
theorem C6_witness :
    processFolder envBase none folderNoName =
      .ok [⟨DiagKind.error, "BAD: instance: requires property name"⟩]
    ∧ foldFolders envBase none [folderNoName, folderGood] =
        .ok [⟨DiagKind.error, "BAD: instance: requires property name"⟩] := by
  have h := C6_invalid_entry_isolated envBase none folderNoName dataNoName rfl
    (by simp [folderNoName]) (by decide)
  constructor
  · rw [h.1]; rfl
  · rw [h.2 [folderGood]]; rfl

/-- C8 counterexample: an entry declaring its token on the privileged chain
identifier ethereum, with the external list available and the address absent
from it, produces two schema errors and no warning at all: the claimed
single absence warning never appears because no ethereum token survives
schema validation. -/
theorem C8_counterexample :
    validate envBase [folderEth] none =
      .ok [⟨DiagKind.error,
              "FOO: instance.tokens: is not allowed to have the additional property ethereum"⟩,
           ⟨DiagKind.error, "FOO: instance.tokens: is not any of the candidate schemas"⟩]
    ∧ List.countP (fun d => d.kind == DiagKind.warning)
        [(⟨DiagKind.error,
            "FOO: instance.tokens: is not allowed to have the additional property ethereum"⟩ : Diagnostic),
         ⟨DiagKind.error, "FOO: instance.tokens: is not any of the candidate schemas"⟩] = 0 :=
  ⟨rfl, rfl⟩

/-- C8 amended: tokens on non-privileged chains never trigger the external
list check, and since the schema admits only the supported chain keys
specular and sepolia while the check is keyed to the chain literal ethereum,
no schema-valid entry contains a privileged-chain token, so the external
list check emits no diagnostic for any schema-valid entry. -/
theorem C8_no_privileged_tokens :
    (∀ (u : String → Bool) (data : JsonValue) (chain : String) (tok : JsonValue)
      (cg : Option (List String)) (fname addr : String),
      schemaViolations u data = [] → (chain, tok) ∈ tokensEntries data →
      checkCG cg fname chain addr = [])
    ∧ (∀ (cg : Option (List String)) (fname chain addr : String),
      chain ≠ "ethereum" → checkCG cg fname chain addr = []) := by
  have h2 : ∀ (cg : Option (List String)) (fname chain addr : String),
      chain ≠ "ethereum" → checkCG cg fname chain addr = [] := by
    intro cg fname chain addr hc
    simp [checkCG, hc]
  refine ⟨?_, h2⟩
  intro u data chain tok cg fname addr hv hm
  rcases schemaValid_chainKeys u data chain tok hv hm with h | h <;>
    exact h2 cg fname chain addr (by simp [h])

/-- C8 witness: a schema-valid specular token gets no external-list
diagnostic even though its address is absent from the available list. -/
theorem C8_witness :
    checkCG (some []) "TST" "specular" addrG = [] := by
  have hmem : ("specular", tokGood) ∈ tokensEntries dataGood := by
    simp [tokensEntries, dataGood, getField, lookupField]
  exact C8_no_privileged_tokens.1 (fun _ => true) dataGood "specular" tokGood
    (some []) "TST" addrG rfl hmem
